import Mathlib

/-!
Verification of the request-to-invocation translation and execution pipeline
of cligateway (cligateway.go), a small HTTP gateway that runs whitelisted
command-line programs.

The Go source is shallowly embedded below.  Go maps are embedded as
association lists carrying the entries in the order the Go runtime happens to
iterate them (Go's map iteration order is randomized, so nothing here may
assume a particular order for a given map).  Go slices are embedded as lists;
where the nil-slice / empty-slice distinction matters (`exec.Cmd.Env`), a
`Option (List String)` is used with `none` playing the role of Go `nil`.
-/

namespace Cligateway

/-- Models Go `unicode.IsSpace` (the White_Space property), used by
`strings.TrimSpace` and by whitespace tokenization. -/
def goIsSpace (c : Char) : Bool :=
  let n := c.toNat
  n == 9 || n == 10 || n == 11 || n == 12 || n == 13 || n == 32 ||
  n == 0x85 || n == 0xA0 || n == 0x1680 ||
  (decide (0x2000 ≤ n) && decide (n ≤ 0x200A)) ||
  n == 0x2028 || n == 0x2029 || n == 0x202F || n == 0x205F || n == 0x3000

/-- Models Go `strings.ToLower` on the ASCII strings it is applied to here:
lower-case each character (`Char.toLower` handles basic latin letters). -/
def goToLower (s : String) : String :=
  String.mk (s.toList.map Char.toLower)

/-- Models Go `strings.ToUpper` on the ASCII strings it is applied to here:
upper-case each character. -/
def goToUpper (s : String) : String :=
  String.mk (s.toList.map Char.toUpper)

/-- Models Go `strings.TrimSpace`: remove leading and trailing white space. -/
def trimSpace (s : String) : String :=
  String.mk (((s.toList.dropWhile goIsSpace).reverse.dropWhile goIsSpace).reverse)

/-- Models Go `strings.HasPrefix(k, "-")`: the first byte of `k` is a dash. -/
def startsWithDash (k : String) : Bool :=
  match k.toList with
  | [] => false
  | c :: _ => c == '-'

/-- The UTF-8 byte width of one code point, as Go encodes strings. -/
def goUtf8Size (c : Char) : Nat :=
  if c.toNat < 0x80 then 1
  else if c.toNat < 0x800 then 2
  else if c.toNat < 0x10000 then 3
  else 4

/-- Models Go `len(s)` on a string: its UTF-8 byte length (not its rune
count). -/
def goLen (s : String) : Nat :=
  (s.toList.map goUtf8Size).sum

/-- Splitting a character list at every character satisfying `p`, keeping
empty segments, as Go `strings.Split` does for a one-character separator. -/
def splitOnP (p : Char → Bool) : List Char → List (List Char)
  | [] => [[]]
  | c :: rest =>
    let r := splitOnP p rest
    if p c then [] :: r
    else
      match r with
      | [] => [[c]]
      | g :: gs => (c :: g) :: gs

/-- Models Go `strings.Split(s, sep)` for a one-character separator `sep`:
split around each instance of `sep`, keeping empty segments; the result is
never the empty list (`strings.Split("", sep)` is `[""]`). -/
def goSplit (sep : Char) (s : String) : List String :=
  (splitOnP (fun c => c == sep) s.toList).map String.mk

/-- Modelled from the spec words of §4.2 (POST translator): the `command`
field "is split on whitespace" into tokens.  This is the whitespace
tokenization the spec describes (Go `strings.Fields` semantics: maximal runs
of white space separate tokens, no empty tokens), kept distinct from the
source's `strings.Split(command, " ")` so the two can be compared. -/
def whitespaceTokens (s : String) : List String :=
  ((splitOnP goIsSpace s.toList).filter (fun g => !g.isEmpty)).map String.mk

/-- The `request` struct of cligateway.go: a command with flags, positional
arguments and environment overrides.  `flags` and `envs` are Go maps,
embedded as the entry sequence in the runtime's iteration order. -/
structure request where
  command : String
  flags : List (String × String)
  args : List String
  envs : List (String × String)
  deriving DecidableEq

/-- The dash normalization applied to one (already trimmed) flag key inside
`request.flagStrings`: when `addDashes` is set and the key does not already
start with a dash, prefix `-` if the key is one byte long (Go `len(k) == 1`),
else prefix `--`. -/
def dashKey (addDashes : Bool) (k : String) : String :=
  if addDashes && !startsWithDash k then
    if goLen k == 1 then "-" ++ k else "--" ++ k
  else k

/-- `request.flagStrings` of cligateway.go: for each flag entry, trim key and
value, optionally add dashes to the key, emit the key, and emit the value
after it exactly when the trimmed value is nonempty.  The entry list is the
order in which the Go runtime iterates the `flags` map. -/
def flagStrings (addDashes : Bool) : List (String × String) → List String
  | [] => []
  | (k, v) :: rest =>
    let k1 := dashKey addDashes (trimSpace k)
    let v1 := trimSpace v
    if v1 == "" then k1 :: flagStrings addDashes rest
    else k1 :: v1 :: flagStrings addDashes rest

/-- `request.envStrings` of cligateway.go: for each env entry, trim key and
value, optionally upper-case the key, and emit `key=value`.  Upper-casing is
modelled for ASCII keys (Go `strings.ToUpper`). -/
def envStrings (upper : Bool) : List (String × String) → List String
  | [] => []
  | (k, v) :: rest =>
    let k1 := trimSpace k
    let k2 := if upper then goToUpper k1 else k1
    (k2 ++ "=" ++ trimSpace v) :: envStrings upper rest

/-- `request.fullArgs` of cligateway.go: `append(req.flagStrings(), req.args...)`. -/
def fullArgs (addDashes : Bool) (r : request) : List String :=
  flagStrings addDashes r.flags ++ r.args

/-- `inWhitelist` of cligateway.go: linear scan comparing the command for
string equality against each whitelist entry. -/
def inWhitelist (command : String) : List String → Bool
  | [] => false
  | w :: rest => if command == w then true else inWhitelist command rest

/-- `argsFilter` of cligateway.go: skip every element that is exactly the
empty string, and `strings.TrimSpace` each element that is kept.  Note the
emptiness test happens on the untrimmed element. -/
def argsFilter : List String → List String
  | [] => []
  | a :: rest =>
    if a == "" then argsFilter rest
    else trimSpace a :: argsFilter rest

/-- A Go slice built by `append`ing to a `var s []string` is `nil` exactly
when nothing was appended; this converts the built list to the slice it
denotes (`none` is Go `nil`). -/
def goSlice (l : List String) : Option (List String) :=
  if l.isEmpty then none else some l

/-- Models the documented `os/exec` semantics of `cmd.Env`: if `Env` is nil
the child process uses the host process's environment, otherwise `Env` is the
child's complete environment. -/
def childEnv (env : Option (List String)) (hostEnv : List String) : List String :=
  match env with
  | none => hostEnv
  | some e => e

/-- The observable effect of `run` in cligateway.go: the error responses
written before the runner takes over, and the process spawn handed to
`exec.CommandContext` (command, filtered args, `cmd.Env`).  The runner's own
success/failure response depends on the external process and is outside this
model. -/
structure RunEffect where
  responses : List (Nat × String)
  spawned : Option (String × List String × Option (List String))
  deriving DecidableEq

/-- The responses written by `checkCommand` of cligateway.go: a 403 with
message "command not allowed." when the command is not whitelisted, nothing
otherwise.  Its early `return` exits only `checkCommand` itself. -/
def checkCommandResponses (wl : List String) (command : String) : List (Nat × String) :=
  if inWhitelist command wl then [] else [(403, "command not allowed.")]

/-- `run` of cligateway.go: call `checkCommand` (which writes a 403 on a
non-whitelisted command but cannot abort its caller), filter the arguments,
and unconditionally build and hand the command to the runner — so a process
is spawned on every call, whitelisted or not. -/
def run (wl : List String) (command : String) (args : List String)
    (env : Option (List String)) : RunEffect :=
  { responses := checkCommandResponses wl command
    spawned := some (command, argsFilter args, env) }

/-- Models a Go map assignment `m[k] = v` where `m` may be the nil map:
assignment to a nil map panics at run time (`none`).  The successful branch
replaces any previous entry for the key; it is unreachable from `getHandler`,
whose map is never initialized. -/
def goMapWrite (m : Option (List (String × String))) (k v : String) :
    Option (Option (List (String × String))) :=
  match m with
  | none => none
  | some entries => some (some ((entries.filter (fun p => !(p.1 == k))) ++ [(k, v)]))

/-- The query-parameter loop of `getHandler`: for each query entry with a
nonempty key and at least one value, write the first value into `req.flags`.
`req.flags` starts out as the nil map (`none`) and is never initialized, so
the first such write panics; the overall result is `none` on panic. -/
def getQueryLoop (m : Option (List (String × String))) :
    List (String × List String) → Option (Option (List (String × String)))
  | [] => some m
  | (k, vs) :: rest =>
    if k ≠ "" ∧ 0 < vs.length then
      match goMapWrite m k (vs.headD "") with
      | none => none
      | some m1 => getQueryLoop m1 rest
    else getQueryLoop m rest

/-- `getHandler` of cligateway.go, up to the `run` call: `command` and `args`
come from the route parameters (`args` is split on "/"), query parameters go
through `getQueryLoop` into the nil `flags` map, and `run` is called with a
nil environment.  `none` means the handler panicked writing to the nil map
(caught only by the router's recovery middleware, outside this model).
Ranging over the nil map iterates zero times, hence `flags.getD []`. -/
def getHandlerResult (addDashes : Bool) (wl : List String)
    (commandParam argsParam : String) (query : List (String × List String)) :
    Option RunEffect :=
  match getQueryLoop none query with
  | none => none
  | some flags =>
    let req : request :=
      { command := commandParam
        flags := flags.getD []
        args := goSplit '/' argsParam
        envs := [] }
    some (run wl req.command (fullArgs addDashes req) none)

/-- The token list `cmds` of `postHandler`: `strings.Split(req.command, " ")`. -/
def postCmds (r : request) : List String :=
  goSplit ' ' r.command

/-- Whether `postHandler` takes its `len(cmds) < 1` "no command given"
branch. -/
def postTakes400 (r : request) : Bool :=
  decide ((postCmds r).length < 1)

/-- The program `postHandler` executes: `cmds[0]`.  `postCmds` is provably
nonempty (see `goSplit_ne_nil`), so the default of `headD` is dead. -/
def postProgram (r : request) : String :=
  (postCmds r).headD ""

/-- The argument vector `postHandler` passes to `run`:
`append(subcmds, req.fullArgs()...)` with `subcmds = cmds[1:]`. -/
def postArgVec (addDashes : Bool) (r : request) : List String :=
  (postCmds r).tail ++ fullArgs addDashes r

/-- `postHandler` of cligateway.go after a successful bind, up to the `run`
call: split the command on " ", run `cmds[0]` with the subcommands prepended
to the full argument vector and `envStrings` as the environment slice. -/
def postHandlerResult (addDashes upper : Bool) (wl : List String) (r : request) :
    RunEffect :=
  run wl (postProgram r) (postArgVec addDashes r) (goSlice (envStrings upper r.envs))

/-- The two runner implementations selectable at startup. -/
inductive RunnerKind where
  | text
  | json
  deriving DecidableEq

/-- The `-resp` switch in `main` of cligateway.go: lower-case the flag value;
"text" selects the text runner and keeps the stored selector unchanged; every
other value selects the JSON runner and rewrites the stored selector to
"json".  Returns (selected runner, stored selector). -/
def selectRunner (resp : String) : RunnerKind × String :=
  match goToLower resp with
  | "text" => (RunnerKind.text, resp)
  | _ => (RunnerKind.json, "json")

/-- One flag entry's contribution to `flagStrings`: the trimmed,
possibly dash-prefixed key, followed by the trimmed value exactly when the
trimmed value is nonempty. -/
def flagPairTokens (addDashes : Bool) (p : String × String) : List String :=
  if trimSpace p.2 == "" then [dashKey addDashes (trimSpace p.1)]
  else [dashKey addDashes (trimSpace p.1), trimSpace p.2]

/-! ## Helper lemmas -/

theorem splitOnP_ne_nil (p : Char → Bool) (l : List Char) : splitOnP p l ≠ [] := by
  induction l with
  | nil => simp [splitOnP]
  | cons c rest ih =>
    simp only [splitOnP]
    split
    · simp
    · cases h : splitOnP p rest with
      | nil => simp
      | cons g gs => simp

theorem goSplit_ne_nil (sep : Char) (s : String) : goSplit sep s ≠ [] := by
  simpa [goSplit] using splitOnP_ne_nil (fun c => c == sep) s.toList

theorem flagStrings_cons (ad : Bool) (k v : String) (rest : List (String × String)) :
    flagStrings ad ((k, v) :: rest) = flagPairTokens ad (k, v) ++ flagStrings ad rest := by
  simp only [flagStrings, flagPairTokens]
  split <;> simp

theorem getQueryLoop_none_isNone (q : List (String × List String)) :
    (getQueryLoop none q).isNone = q.any (fun p => !(p.1 == "") && !(p.2.isEmpty)) := by
  induction q with
  | nil => rfl
  | cons p rest ih =>
    obtain ⟨k, vs⟩ := p
    by_cases h : k ≠ "" ∧ 0 < vs.length
    · have hk : (k == "") = false := by
        simp [h.1]
      have hv : vs.isEmpty = false := by
        cases vs with
        | nil => exact absurd h.2 (by simp)
        | cons a l => rfl
      simp [getQueryLoop, h, goMapWrite, hk, hv]
    · rw [not_and_or] at h
      rcases h with h | h
      · have hk : k = "" := by
          by_contra hc
          exact h hc
        simp [getQueryLoop, hk, ih]
      · have hv : vs = [] := by
          cases vs with
          | nil => rfl
          | cons a l => exact absurd (by simp) h
        simp [getQueryLoop, hv, ih]

/-! ## Claim theorems -/

/-- C1: the spec's own test vector (GET with command parameter "rm" and
wildcard argument path holding "-rf" between slashes) with whitelist ["pwd"]
evaluated on the code: `checkCommand` does write the 403
"command not allowed." response, but its `return` exits only `checkCommand`,
so `run` still builds the command and hands ("rm", ["-rf"]) to the runner —
a process IS spawned for the forbidden request, contradicting the claim. -/
theorem C1_forbidden_request_still_spawns :
    getHandlerResult false ["pwd"] "rm" "/-rf//" [] =
      some { responses := [(403, "command not allowed.")]
             spawned := some ("rm", ["-rf"], none) } := by
  decide

/-- C2 counterexample: a GET request (env slice nil) and a POST request with
empty `envs` both give `cmd.Env = nil`, and per the documented `os/exec`
semantics a nil `Env` makes the child use the host process's environment:
with host environment ["PATH=/bin"] the child environment is ["PATH=/bin"],
not the Invocation's (empty) environment vector. -/
theorem C2_empty_envs_inherits_host_env :
    (getHandlerResult false ["pwd"] "pwd" "/" []).map RunEffect.spawned
      = some (some ("pwd", [], none)) ∧
    childEnv none ["PATH=/bin"] = ["PATH=/bin"] ∧
    childEnv (goSlice (envStrings false [])) ["PATH=/bin"] = ["PATH=/bin"] ∧
    (["PATH=/bin"] : List String) ≠ [] := by
  refine ⟨by decide, rfl, rfl, by decide⟩

/-- C2 amended: when `envs` is nonempty, `envStrings envs` is passed verbatim
as the complete child environment; when `envs` is empty or unset, the env
slice is nil and the child inherits the host process's environment. -/
theorem C2_child_env_amended (upper : Bool) (envs : List (String × String))
    (host : List String) :
    childEnv (goSlice (envStrings upper envs)) host =
      if envs.isEmpty then host else envStrings upper envs := by
  cases envs with
  | nil => rfl
  | cons p rest =>
    obtain ⟨k, v⟩ := p
    simp [envStrings, goSlice, childEnv]

/-- C3 counterexample: `argsFilter` tests emptiness before trimming, so the
element " " survives (as "" after trimming) and
`argsFilter ["", " ", "x", ""]` is ["", "x"], not the ["x"] the claim
states. -/
theorem C3_sanitize_example_fails :
    argsFilter ["", " ", "x", ""] ≠ ["x"] ∧
    argsFilter ["", " ", "x", ""] = ["", "x"] := by
  decide

/-- C3 amended: the sanitizer drops every element that is exactly the empty
string (tested before any trimming) and trims each surviving element; in
particular whitespace-only elements survive as empty strings, and
`argsFilter ["", " ", "x", ""]` is ["", "x"]. -/
theorem C3_sanitize_amended :
    (∀ args : List String,
      argsFilter args = (args.filter (fun a => !(a == ""))).map trimSpace) ∧
    argsFilter ["", " ", "x", ""] = ["", "x"] := by
  refine ⟨?_, by decide⟩
  intro args
  induction args with
  | nil => rfl
  | cons a rest ih => by_cases h : a = "" <;> simp [argsFilter, h, ih]

/-- C4: a POST body whose command is the empty string evaluated on the code:
the "no command given" 400 branch is not taken (`strings.Split("", " ")` is
[""]), the program "" is passed to the whitelist check, and the response is
the whitelist's 403 — not a 400 before the whitelist lookup as the claim
states. -/
theorem C4_empty_command_reaches_whitelist :
    postTakes400 { command := "", flags := [], args := [], envs := [] } = false ∧
    postProgram { command := "", flags := [], args := [], envs := [] } = "" ∧
    (postHandlerResult false false ["pwd"]
        { command := "", flags := [], args := [], envs := [] }).responses
      = [(403, "command not allowed.")] := by
  decide

/-- C5 counterexample: the POST translator splits the command on the space
character only, not on whitespace: for the command "echo\thi" (a tab) the
program the code runs is the single token "echo\thi", while splitting on
whitespace as the claim states would make the program "echo". -/
theorem C5_space_split_not_whitespace_split :
    postProgram { command := "echo\thi", flags := [], args := [], envs := [] }
      = "echo\thi" ∧
    (whitespaceTokens "echo\thi").headD "" = "echo" ∧
    ("echo\thi" : String) ≠ "echo" := by
  refine ⟨rfl, by decide, by decide⟩

/-- C5 amended: the command field is split on the space character " "; the
first resulting token (possibly empty) becomes the program, and the final
argument vector before sanitization is exactly the remaining tokens, then
`flagStrings flags`, then `args`, in that order — illustrated on the spec's
example POST command "echo hi" with args ["there"]. -/
theorem C5_post_invocation_amended :
    (∀ (ad : Bool) (r : request),
      postProgram r = (goSplit ' ' r.command).headD "" ∧
      postArgVec ad r = (goSplit ' ' r.command).tail ++ flagStrings ad r.flags ++ r.args) ∧
    postProgram { command := "echo hi", flags := [], args := ["there"], envs := [] }
      = "echo" ∧
    postArgVec false { command := "echo hi", flags := [], args := ["there"], envs := [] }
      = ["hi", "there"] := by
  refine ⟨fun ad r => ⟨rfl, ?_⟩, by decide, by decide⟩
  simp [postArgVec, fullArgs, postCmds]

/-- C6 counterexample: the two association lists are permutations of each
other, i.e. they are the same flags mapping handed to the runtime in two
iteration orders, yet `flagStrings` produces different outputs — so the
output is not determined by the mapping, let alone in insertion order.
Moreover the single/double dash choice uses the Go byte length, not the
character count: the one-character key "é" (two UTF-8 bytes) gets "--". -/
theorem C6_flag_order_not_deterministic :
    List.Perm [("a", ""), ("bee", "1")] [("bee", "1"), ("a", "")] ∧
    flagStrings true [("a", ""), ("bee", "1")] = ["-a", "--bee", "1"] ∧
    flagStrings true [("bee", "1"), ("a", "")] = ["--bee", "1", "-a"] ∧
    (["-a", "--bee", "1"] : List String) ≠ ["--bee", "1", "-a"] ∧
    "é".length = 1 ∧
    flagStrings true [("é", "")] = ["--é"] ∧
    (["--é"] : List String) ≠ ["-é"] := by
  exact ⟨List.Perm.swap _ _ _, by decide, by decide, by decide, by decide,
    by decide, by decide⟩

/-- C6 amended: with add-dashes enabled, `flagStrings` trims each key and
value, prefixes a key not already starting with a dash with a single dash
when the trimmed key is one byte long and a double dash otherwise, and emits
the key followed by the value exactly when the trimmed value is nonempty;
the pairs are emitted in the order the runtime iterates the map, which is
not guaranteed to be the insertion order nor deterministic for a given
mapping.  For the iteration order [("a",""), ("bee","1")] the output is
["-a", "--bee", "1"]. -/
theorem C6_flagStrings_amended :
    (∀ ad : Bool, flagStrings ad [] = []) ∧
    (∀ (ad : Bool) (k v : String) (rest : List (String × String)),
      flagStrings ad ((k, v) :: rest) = flagPairTokens ad (k, v) ++ flagStrings ad rest) ∧
    flagStrings true [("a", ""), ("bee", "1")] = ["-a", "--bee", "1"] := by
  exact ⟨fun _ => rfl, flagStrings_cons, by decide⟩

/-- C7: the whitelist test is exact string membership — `inWhitelist c wl`
is `decide (c ∈ wl)` for every command and whitelist, with no trimming,
prefix or case folding; in particular "ls" is allowed by ["ls", "pwd"] and
"ls " (trailing space) is rejected by ["ls"]. -/
theorem C7_whitelist_exact_membership :
    (∀ (c : String) (wl : List String), inWhitelist c wl = decide (c ∈ wl)) ∧
    inWhitelist "ls" ["ls", "pwd"] = true ∧
    inWhitelist "ls " ["ls"] = false := by
  refine ⟨?_, by decide, by decide⟩
  intro c wl
  induction wl with
  | nil => simp [inWhitelist]
  | cons w rest ih => by_cases h : c = w <;> simp [inWhitelist, h, ih]

/-- C8: the GET translator panics (result `none`) exactly when some query
parameter has a nonempty key and at least one value — the write into the
never-initialized nil `flags` map; with no usable query parameter the write
is never reached and an invocation is produced. -/
theorem C8_nil_flags_map_write_panics (ad : Bool) (wl : List String)
    (commandParam argsParam : String) (query : List (String × List String)) :
    (getHandlerResult ad wl commandParam argsParam query).isNone =
      query.any (fun p => !(p.1 == "") && !(p.2.isEmpty)) := by
  have h := getQueryLoop_none_isNone query
  unfold getHandlerResult
  cases hq : getQueryLoop none query with
  | none => rw [hq] at h; simpa using h.symm
  | some flags => rw [hq] at h; simpa using h.symm

/-- C9: `strings.Split` always yields at least one token, so `postHandler`'s
`len(cmds) < 1` branch is dead for every request; a POST body with the empty
command proceeds with program "" past the dead branch into the whitelist
check (answering its 403), instead of returning a 400. -/
theorem C9_no_command_branch_unreachable :
    (∀ r : request, 0 < (postCmds r).length ∧ postTakes400 r = false) ∧
    postProgram { command := "", flags := [], args := [], envs := [] } = "" ∧
    (postHandlerResult false false ["pwd"]
        { command := "", flags := [], args := [], envs := [] }).responses
      = [(403, "command not allowed.")] ∧
    (postHandlerResult false false ["pwd"]
        { command := "", flags := [], args := [], envs := [] }).spawned
      = some ("", [], none) := by
  refine ⟨fun r => ?_, rfl, by decide, by decide⟩
  have h : 0 < (postCmds r).length :=
    List.length_pos.mpr (goSplit_ne_nil ' ' r.command)
  exact ⟨h, by simp [postTakes400, Nat.not_lt.mpr h]⟩

/-- C10: the response-format selector is lower-cased before matching; a value
whose lowercase form is "text" selects the text runner and keeps the stored
selector, and every other value selects the JSON runner and rewrites the
stored selector to "json" — total on all strings, so startup never fails on
an invalid selector. -/
theorem C10_resp_selector_case_insensitive :
    (∀ s : String,
      selectRunner s =
        if goToLower s = "text" then (RunnerKind.text, s) else (RunnerKind.json, "json")) ∧
    selectRunner "TeXt" = (RunnerKind.text, "TeXt") ∧
    selectRunner "yaml" = (RunnerKind.json, "json") := by
  refine ⟨?_, by decide, by decide⟩
  intro s
  unfold selectRunner
  split <;> simp_all

end Cligateway
